import Mathlib

/-!
Verification of the container / versioning / resolution model of
openedx-learning (authoring containers, units API, and two tagging
migrations), as a shallow embedding.

Sources embedded directly:
  - openedx_learning/apps/authoring/containers/models.py
      (Segment, SegmentRow, ContainerEntity, ContainerEntityVersion,
       Selector, SelectorVersion, Variant and their foreign-key
       on_delete behaviour)
  - openedx_learning/apps/authoring/units/api.py
      (create_unit, create_unit_version, create_next_unit_version,
       create_unit_and_version, and the module declared names)
  - openedx_tagging/core/tagging/migrations/0014_minor_fixes.py
      (fix_language_taxonomy)

The containers API module (create_container, create_container_version,
create_next_container_version) and the publishing substrate are called by
the units API but their code is not part of the repository slice under
verification; those operations are modelled from the specification, and
each such definition says so in its doc comment.

Machine integers in the source are Python arbitrary-precision ints; they
are embedded as Nat / Int. Database tables are embedded as lists of
records, a fresh-primary-key counter replaces autoincrement ids, and
fallible operations return Except.
-/

namespace OLX

/-- Error taxonomy of the spec (section 7) plus the database-level errors
the embedded operations can raise. -/
inductive DBError where
  | referential
  | versionConflict
  | selectorUnresolved
  | cycle
  | inconsistentDraft
  | restricted
  | doesNotExist
deriving DecidableEq, Repr

/-- Resolution mode: draft or published (spec section 4.4). -/
inductive Mode where
  | draft
  | published
deriving DecidableEq, Repr

/-- Publishable entity identity of the external substrate: a stable id
with two pointers, draft and published, each naming a version id or
unset (spec section 3 and section 6). -/
structure PubEntity where
  id : Nat
  draft : Option Nat
  published : Option Nat
deriving DecidableEq, Repr

/-- Publishable entity version of the external substrate: belongs to one
entity and carries a version number (spec section 3). -/
structure PubVersion where
  id : Nat
  entity : Nat
  version_num : Nat
deriving DecidableEq, Repr

/-- A SegmentRow from containers/models.py: points at a Segment, carries
an immutable order_num, a RESTRICT foreign key to a PublishableEntity,
and a nullable RESTRICT foreign key to a PublishableEntityVersion where
null means an unpinned reference. -/
structure SegmentRow where
  segment : Nat
  order_num : Nat
  entity : Nat
  version : Option Nat
deriving DecidableEq, Repr

/-- A ContainerEntity from containers/models.py: a publishable entity
identity that owns container versions. -/
structure ContainerEntity where
  id : Nat
  publishable_entity : Nat
deriving DecidableEq, Repr

/-- A ContainerEntityVersion from containers/models.py: one version of a
container, wrapping a publishable entity version (flattened here into
the version_num and publishable_entity_version fields), owning one
Segment as its defined list, and recording metadata (title). -/
structure ContainerEntityVersion where
  id : Nat
  container : Nat
  version_num : Nat
  segment : Nat
  publishable_entity_version : Nat
  title : String
deriving DecidableEq, Repr

/-- A Selector from containers/models.py: a publishable entity
placeholder, with RESTRICT foreign keys to a ContainerEntity and a
ContainerEntityVersion. -/
structure Selector where
  id : Nat
  container : Nat
  container_version : Nat
deriving DecidableEq, Repr

/-- A SelectorVersion from containers/models.py: belongs to a Selector,
carries an order_num, and points at one Segment through a plain
(many-to-one) RESTRICT foreign key. -/
structure SelectorVersion where
  id : Nat
  selector : Nat
  order_num : Nat
  segment : Nat
deriving DecidableEq, Repr

/-- A Variant from containers/models.py: its only field is a OneToOne
RESTRICT foreign key to a Segment which is also its primary key. The
model declares no reference to a SelectorVersion. -/
structure Variant where
  segment : Nat
deriving DecidableEq, Repr

/-- A Unit from units/models.py as used by units/api.py: wraps a
ContainerEntity and its PublishableEntity. -/
structure Unit where
  id : Nat
  container_entity : Nat
  publishable_entity : Nat
deriving DecidableEq, Repr

/-- A UnitVersion from units/models.py as used by units/api.py: wraps a
ContainerEntityVersion and its PublishableEntityVersion. -/
structure UnitVersion where
  id : Nat
  unit : Nat
  container_entity_version : Nat
  publishable_entity_version : Nat
deriving DecidableEq, Repr

/-- The database state: one list per table, plus a fresh-id counter
standing in for autoincrement primary keys (every id ever allocated is
below nextId). -/
structure State where
  entities : List PubEntity
  pubVersions : List PubVersion
  segments : List Nat
  segmentRows : List SegmentRow
  containerEntities : List ContainerEntity
  containerVersions : List ContainerEntityVersion
  selectors : List Selector
  selectorVersions : List SelectorVersion
  variants : List Variant
  units : List Unit
  unitVersions : List UnitVersion
  nextId : Nat
deriving DecidableEq, Repr

/-- The empty database. -/
def emptyState : State :=
  ⟨[], [], [], [], [], [], [], [], [], [], [], 0⟩

/-- Well-formedness of a state: every stored id was allocated below the
fresh-id counter. This is the invariant autoincrement primary keys give
every reachable database state. -/
def wf (st : State) : Prop :=
  (∀ e ∈ st.entities, e.id < st.nextId) ∧
  (∀ pv ∈ st.pubVersions, pv.id < st.nextId) ∧
  (∀ s ∈ st.segments, s < st.nextId) ∧
  (∀ r ∈ st.segmentRows, r.segment < st.nextId) ∧
  (∀ ce ∈ st.containerEntities, ce.id < st.nextId) ∧
  (∀ cv ∈ st.containerVersions,
    cv.id < st.nextId ∧ cv.container < st.nextId ∧ cv.segment < st.nextId) ∧
  (∀ u ∈ st.units, u.id < st.nextId) ∧
  (∀ uv ∈ st.unitVersions, uv.id < st.nextId)

instance (st : State) : Decidable (wf st) := by
  unfold wf; infer_instance

/-- Foreign-key well-formedness of the selector-side tables, as declared
in containers/models.py: Variant.segment is a OneToOne primary key (so
no two variants share a segment and each points at a real Segment);
SelectorVersion points at a real Segment and a real Selector; Selector
points at a real ContainerEntity and ContainerEntityVersion. -/
def wfSel (st : State) : Prop :=
  (∀ v ∈ st.variants, v.segment ∈ st.segments) ∧
  (st.variants.map (fun v => v.segment)).Nodup ∧
  (∀ sv ∈ st.selectorVersions,
    sv.segment ∈ st.segments ∧ ∃ s ∈ st.selectors, s.id = sv.selector) ∧
  (∀ s ∈ st.selectors,
    (∃ ce ∈ st.containerEntities, ce.id = s.container) ∧
    ∃ cv ∈ st.containerVersions, cv.id = s.container_version)

instance (st : State) : Decidable (wfSel st) := by
  unfold wfSel; infer_instance

/-- True when an entity with this id exists. -/
def entityExists (st : State) (e : Nat) : Bool :=
  st.entities.any (fun ent => ent.id = e)

/-- True when version v exists and belongs to entity e. -/
def versionBelongs (st : State) (v e : Nat) : Bool :=
  st.pubVersions.any (fun pv => pv.id = v && pv.entity = e)

/-- Draft pointer of an entity, or none when the entity is missing or
its draft pointer is unset. -/
def getDraft (st : State) (e : Nat) : Option Nat :=
  match st.entities.find? (fun ent => ent.id = e) with
  | some ent => ent.draft
  | none => none

/-- Published pointer of an entity, or none when the entity is missing
or its published pointer is unset. -/
def getPublished (st : State) (e : Nat) : Option Nat :=
  match st.entities.find? (fun ent => ent.id = e) with
  | some ent => ent.published
  | none => none

/-- Set the draft pointer of entity e to version v (substrate operation
set_draft of spec section 6). -/
def set_draft (entities : List PubEntity) (e v : Nat) : List PubEntity :=
  entities.map (fun ent => if ent.id = e then { ent with draft := some v } else ent)

/-- Rows of one segment, in stored (insertion) order, which for segments
built by createSegment is ascending order_num. -/
def rowsOf (st : State) (sid : Nat) : List SegmentRow :=
  st.segmentRows.filter (fun r => r.segment = sid)

/-- Build the SegmentRows of a new segment: positions are assigned in
input order starting at pos, each row unpinned or pinned per its input
pair (spec section 4.1). -/
def mkRows (sid : Nat) (pos : Nat) : List (Nat × Option Nat) → List SegmentRow
  | [] => []
  | (e, pv) :: rest => ⟨sid, pos, e, pv⟩ :: mkRows sid (pos + 1) rest

/-- Referential validation of spec section 4.1: every target entity must
exist and every supplied pinned version must belong to its stated target
entity. -/
def validRows (st : State) (rows : List (Nat × Option Nat)) : Bool :=
  rows.all (fun p =>
    entityExists st p.1 &&
    match p.2 with
    | none => true
    | some v => versionBelongs st v p.1)

/-- Modelled from the spec: create of an Ordered Reference List (section
4.1), the containers API helper that builds a new anonymous Segment with
positions assigned 0..n-1 in input order, failing with ReferentialError
when a target entity does not exist or a pinned version does not belong
to it. The containers API module itself is not part of the embedded
sources. -/
def createSegment (st : State) (rows : List (Nat × Option Nat)) :
    Except DBError (State × Nat) :=
  if validRows st rows then
    .ok ({ st with
            segments := st.segments ++ [st.nextId],
            segmentRows := st.segmentRows ++ mkRows st.nextId 0 rows,
            nextId := st.nextId + 1 }, st.nextId)
  else
    .error .referential

/-- Modelled from the spec: create_container of section 4.2, creating the
container identity (with its publishable entity) and zero versions. The
containers API module itself is not part of the embedded sources. The
key, created and created_by arguments are substrate metadata not
represented in this model. -/
def create_container (st : State) (_learning_package_id : Nat) (_key : String)
    (_created : Nat) (_created_by : Option Nat) : State × ContainerEntity :=
  let ent : PubEntity := ⟨st.nextId, none, none⟩
  let ce : ContainerEntity := ⟨st.nextId + 1, st.nextId⟩
  ({ st with
      entities := st.entities ++ [ent],
      containerEntities := st.containerEntities ++ [ce],
      nextId := st.nextId + 2 }, ce)

/-- Largest version_num among a container's existing versions (0 when it
has none). -/
def maxVersionNum (st : State) (c : Nat) : Nat :=
  (st.containerVersions.filter (fun cv => cv.container = c)).foldl
    (fun m cv => max m cv.version_num) 0

/-- Modelled from the spec: create_version of section 4.2 as called by
units/api.py create_unit_version. Inside one atomic transaction it
builds a new Ordered Reference List from the rows (unpinned references
to the given publishable entities), creates the publishable entity
version and the ContainerEntityVersion at the requested version number,
records the title immutably, and moves the draft pointer of the
container's publishable entity. Fails with VersionConflictError when
the version number is already taken for this container, and with
ReferentialError per section 4.1; on failure nothing is committed. -/
def create_container_version (st : State) (container_pk : Nat)
    (version_num : Nat) (title : String) (entity_pk : Nat)
    (rows : List (Nat × Option Nat)) :
    Except DBError (State × ContainerEntityVersion) :=
  if st.containerVersions.any
      (fun cv => cv.container = container_pk && cv.version_num = version_num) then
    .error .versionConflict
  else
    match createSegment st rows with
    | .error e => .error e
    | .ok (st1, sid) =>
      let pv : PubVersion := ⟨st1.nextId, entity_pk, version_num⟩
      let cv : ContainerEntityVersion :=
        ⟨st1.nextId + 1, container_pk, version_num, sid, st1.nextId, title⟩
      .ok ({ st1 with
              pubVersions := st1.pubVersions ++ [pv],
              containerVersions := st1.containerVersions ++ [cv],
              entities := set_draft st1.entities entity_pk st1.nextId,
              nextId := st1.nextId + 2 }, cv)

/-- Modelled from the spec: create_next_version of section 4.2, the
convenience that always targets version_num = (current max + 1). The
containers API module itself is not part of the embedded sources. -/
def create_next_container_version (st : State) (container_pk : Nat)
    (title : String) (entity_pk : Nat) (rows : List (Nat × Option Nat)) :
    Except DBError (State × ContainerEntityVersion) :=
  create_container_version st container_pk (maxVersionNum st container_pk + 1)
    title entity_pk rows

/-- From units/api.py create_unit: inside one atomic transaction, create
the container identity and the Unit wrapping it. -/
def create_unit (st : State) (learning_package_id : Nat) (key : String)
    (created : Nat) (created_by : Option Nat) : State × Unit :=
  let (st1, ce) := create_container st learning_package_id key created created_by
  let u : Unit := ⟨st1.nextId, ce.id, ce.publishable_entity⟩
  ({ st1 with units := st1.units ++ [u], nextId := st1.nextId + 1 }, u)

/-- From units/api.py create_unit_version: inside one atomic transaction,
create the container version (the publishable entity pks become unpinned
rows) and the UnitVersion wrapping it. -/
def create_unit_version (st : State) (u : Unit) (version_num : Nat)
    (title : String) (publishable_entities_pk : List Nat) :
    Except DBError (State × UnitVersion) :=
  match create_container_version st u.container_entity version_num title
      u.publishable_entity (publishable_entities_pk.map (fun pk => (pk, none))) with
  | .error e => .error e
  | .ok (st1, cv) =>
    let uv : UnitVersion := ⟨st1.nextId, u.id, cv.id, cv.publishable_entity_version⟩
    .ok ({ st1 with
            unitVersions := st1.unitVersions ++ [uv],
            nextId := st1.nextId + 1 }, uv)

/-- From units/api.py create_next_unit_version: same as
create_unit_version but at the next sequential version number. -/
def create_next_unit_version (st : State) (u : Unit) (title : String)
    (publishable_entities_pk : List Nat) :
    Except DBError (State × UnitVersion) :=
  match create_next_container_version st u.container_entity title
      u.publishable_entity (publishable_entities_pk.map (fun pk => (pk, none))) with
  | .error e => .error e
  | .ok (st1, cv) =>
    let uv : UnitVersion := ⟨st1.nextId, u.id, cv.id, cv.publishable_entity_version⟩
    .ok ({ st1 with
            unitVersions := st1.unitVersions ++ [uv],
            nextId := st1.nextId + 1 }, uv)

/-- From units/api.py create_unit_and_version: inside one atomic
transaction, create the unit and its first version (version number 1)
with an empty member list. -/
def create_unit_and_version (st : State) (learning_package_id : Nat)
    (key : String) (created : Nat) (created_by : Option Nat) (title : String) :
    Except DBError (State × Unit × UnitVersion) :=
  let (st1, u) := create_unit st learning_package_id key created created_by
  match create_unit_version st1 u 1 title [] with
  | .error e => .error e
  | .ok (st2, uv) => .ok (st2, u, uv)

/-- Atomic-transaction semantics of the django atomic() wrapper used by
units/api.py: on success the committed state is the result, on failure
everything rolls back to the state before the transaction. -/
def runAtomic {α : Type} (f : State → Except DBError (State × α)) (st : State) :
    State :=
  match f st with
  | .ok (st', _) => st'
  | .error _ => st

/-- One entry of the Resolution Engine output (spec section 6):
position, target entity id and the resolved version id. -/
structure ResolvedEntry where
  position : Nat
  target_entity : Nat
  resolved_version : Nat
deriving DecidableEq, Repr

/-- Modelled from the spec: row resolution of section 4.4 (the Resolution
Engine is not part of the embedded sources). A pinned row resolves to
exactly its pinned version with no pointer lookup; an unpinned row
dereferences its target's draft or published pointer per mode; an unset
published pointer makes the row invisible (none); an unset draft
pointer raises InconsistentDraftError. -/
def resolveRow (st : State) (mode : Mode) (r : SegmentRow) :
    Except DBError (Option ResolvedEntry) :=
  match r.version with
  | some v => .ok (some ⟨r.order_num, r.entity, v⟩)
  | none =>
    match mode with
    | .published =>
      match getPublished st r.entity with
      | some v => .ok (some ⟨r.order_num, r.entity, v⟩)
      | none => .ok none
    | .draft =>
      match getDraft st r.entity with
      | some v => .ok (some ⟨r.order_num, r.entity, v⟩)
      | none => .error .inconsistentDraft

/-- Modelled from the spec: shallow resolution of a row sequence in order
(section 4.4), keeping resolved entries in position order and omitting
rows whose resolution is none. -/
def resolveRows (st : State) (mode : Mode) :
    List SegmentRow → Except DBError (List ResolvedEntry)
  | [] => .ok []
  | r :: rs =>
    match resolveRow st mode r with
    | .error e => .error e
    | .ok entry =>
      match resolveRows st mode rs with
      | .error e => .error e
      | .ok rest =>
        match entry with
        | some en => .ok (en :: rest)
        | none => .ok rest

/-- Delete a publishable entity identity. SegmentRow.entity is declared
on_delete=RESTRICT in containers/models.py, so the delete is refused
while any SegmentRow still references the entity. -/
def deleteEntity (st : State) (e : Nat) : Except DBError State :=
  if st.segmentRows.any (fun r => r.entity = e) then
    .error .restricted
  else
    .ok { st with entities := st.entities.filter (fun ent => ent.id ≠ e) }

/-- Delete a publishable entity version. SegmentRow.version is declared
on_delete=RESTRICT (and nullable) in containers/models.py, so the delete
is refused only while some SegmentRow pins that exact version; unpinned
rows store null there and do not block it. -/
def deleteVersion (st : State) (v : Nat) : Except DBError State :=
  if st.segmentRows.any (fun r => r.version = some v) then
    .error .restricted
  else
    .ok { st with pubVersions := st.pubVersions.filter (fun pv => pv.id ≠ v) }

/-- The claim that from every Variant exactly one SelectorVersion can be
recovered. The Variant model stores only its Segment, so the only
possible association is through SelectorVersion.segment. -/
def variantBindsOneSelectorVersion (st : State) : Prop :=
  ∀ v ∈ st.variants,
    ∃! sv : SelectorVersion, sv ∈ st.selectorVersions ∧ sv.segment = v.segment

/-- Matching SelectorVersions of a variant: those whose segment foreign
key equals the variant's segment primary key. -/
def matchingSelectorVersions (st : State) (v : Variant) : List SelectorVersion :=
  st.selectorVersions.filter (fun sv => sv.segment = v.segment)

/-- A well-formed state holding one Variant whose Segment no
SelectorVersion points at. -/
def exStateNoSV : State :=
  { emptyState with
      segments := [0],
      variants := [⟨0⟩],
      nextId := 1 }

/-- A well-formed state holding one Variant whose Segment two distinct
SelectorVersions point at (the SelectorVersion.segment foreign key is
many-to-one, so this is a legal database state). -/
def exStateTwoSV : State :=
  { emptyState with
      entities := [⟨0, none, none⟩],
      segments := [1, 2],
      containerEntities := [⟨3, 0⟩],
      containerVersions := [⟨4, 3, 1, 2, 0, "t"⟩],
      selectors := [⟨5, 3, 4⟩],
      selectorVersions := [⟨6, 5, 0, 1⟩, ⟨7, 5, 1, 1⟩],
      variants := [⟨1⟩],
      nextId := 8 }

/-- Names declared in the units API module dunder-all list
(units/api.py lines 13-25). -/
def unitsApiAll : List String :=
  ["create_unit",
   "create_unit_version",
   "create_next_unit_version",
   "create_unit_and_version",
   "get_unit",
   "get_unit_version",
   "get_latest_unit_version",
   "get_unit_version_by_version_num",
   "get_user_defined_components_in_unit_version",
   "get_initial_components_in_unit_version",
   "get_frozen_components_in_unit_version"]

/-- Names of the functions actually defined in the units API module
(units/api.py). -/
def unitsApiDefinedNames : List String :=
  ["create_unit",
   "create_unit_version",
   "create_next_unit_version",
   "create_unit_and_version",
   "get_unit",
   "get_unit_version",
   "get_latest_unit_version",
   "get_unit_version_by_version_num",
   "get_user_defined_list_in_unit_version",
   "get_initial_list_in_unit_version",
   "get_frozen_list_in_unit_version"]

/-- A taxonomy row of the oel_tagging Taxonomy table as touched by
migration 0014: the primary key, the nullable field named with a
leading underscore in the source (taxonomy class path), and the
remaining fields represented by name and enabled. -/
structure TaxonomyRow where
  pk : Int
  taxonomy_class : Option String
  name : String
  enabled : Bool
deriving DecidableEq, Repr

/-- The canonical language-taxonomy class path of migration 0014. -/
def correctClass : String :=
  "openedx_tagging.core.tagging.models.system_defined.LanguageTaxonomy"

/-- Row-level effect of the migration step: on the language taxonomy row
(pk = -1) whose class differs from the canonical path, set the class and
nothing else; on every other row, no effect. -/
def fixTaxonomyRow (r : TaxonomyRow) : TaxonomyRow :=
  if r.pk = -1 then
    if r.taxonomy_class ≠ some correctClass then
      { r with taxonomy_class := some correctClass }
    else r
  else r

/-- From migrations/0014_minor_fixes.py fix_language_taxonomy: fetch the
taxonomy with pk = -1 (Taxonomy.objects.get raises DoesNotExist when it
is absent); when its taxonomy class differs from the canonical path, set
it and save only that field. Embedded as a map over the table that
rewrites only the pk = -1 row. -/
def fix_language_taxonomy (rows : List TaxonomyRow) :
    Except DBError (List TaxonomyRow) :=
  match rows.find? (fun r => r.pk = -1) with
  | none => .error .doesNotExist
  | some _ => .ok (rows.map fixTaxonomyRow)

/-- A well-formed state holding one unit whose container has exactly one
version (version_num 1, segment 3), used to evaluate the operations on
concrete input. -/
def stUnitW : State :=
  { emptyState with
      entities := [⟨0, some 4, none⟩],
      pubVersions := [⟨4, 0, 1⟩],
      segments := [3],
      segmentRows := [],
      containerEntities := [⟨1, 0⟩],
      containerVersions := [⟨5, 1, 1, 3, 4, "t"⟩],
      units := [⟨2, 1, 0⟩],
      unitVersions := [⟨6, 2, 5, 4⟩],
      nextId := 7 }

/-- A state holding one entity whose draft pointer is set and whose
published pointer is unset. -/
def stEntW : State :=
  { emptyState with
      entities := [⟨1, some 2, none⟩],
      pubVersions := [⟨2, 1, 1⟩],
      nextId := 3 }

/-- A state holding one segment row pinning version 3 of entity 1. -/
def stRowW : State :=
  { emptyState with
      entities := [⟨1, none, none⟩],
      pubVersions := [⟨3, 1, 1⟩, ⟨5, 1, 2⟩],
      segments := [0],
      segmentRows := [⟨0, 0, 1, some 3⟩],
      nextId := 6 }

/-- A concrete taxonomy table where the language row carries a wrong
taxonomy class. -/
def taxRowsW : List TaxonomyRow :=
  [⟨-1, none, "Languages", true⟩, ⟨7, some "some.other.Class", "Other", false⟩]

/-- The taxonomy table after running the migration step on taxRowsW. -/
def taxRowsWFixed : List TaxonomyRow :=
  [⟨-1, some correctClass, "Languages", true⟩,
   ⟨7, some "some.other.Class", "Other", false⟩]

/-- The state reached from stUnitW by creating container version 2 with
title t2 and no rows. -/
def stUnitWAfter : State :=
  { emptyState with
      entities := [⟨0, some 8, none⟩],
      pubVersions := [⟨4, 0, 1⟩, ⟨8, 0, 2⟩],
      segments := [3, 7],
      segmentRows := [],
      containerEntities := [⟨1, 0⟩],
      containerVersions := [⟨5, 1, 1, 3, 4, "t"⟩, ⟨9, 1, 2, 7, 8, "t2"⟩],
      units := [⟨2, 1, 0⟩],
      unitVersions := [⟨6, 2, 5, 4⟩],
      nextId := 10 }

/-- The container version created by that call. -/
def cvNewW : ContainerEntityVersion := ⟨9, 1, 2, 7, 8, "t2"⟩

/-- The state reached from stUnitW by create_next_container_version with
title t3 and no rows. -/
def stUnitWAfter3 : State :=
  { stUnitWAfter with
      containerVersions := [⟨5, 1, 1, 3, 4, "t"⟩, ⟨9, 1, 2, 7, 8, "t3"⟩] }

/-- The container version created by that call. -/
def cvNextW : ContainerEntityVersion := ⟨9, 1, 2, 7, 8, "t3"⟩

/-- The state create_unit reaches, spelled out for proofs: a fresh
publishable entity, container entity and unit. -/
def afterCreateUnit (st : State) : State :=
  { st with
      entities := st.entities ++ [⟨st.nextId, none, none⟩],
      containerEntities := st.containerEntities ++ [⟨st.nextId + 1, st.nextId⟩],
      units := st.units ++ [⟨st.nextId + 2, st.nextId + 1, st.nextId⟩],
      nextId := st.nextId + 3 }

/-- The unit create_unit returns, spelled out for proofs. -/
def unitOf (st : State) : Unit := ⟨st.nextId + 2, st.nextId + 1, st.nextId⟩

/-- The state reached from stUnitW by create_unit_version at version 2
with one unpinned member (entity 0). -/
def stUnitVW : State :=
  { emptyState with
      entities := [⟨0, some 8, none⟩],
      pubVersions := [⟨4, 0, 1⟩, ⟨8, 0, 2⟩],
      segments := [3, 7],
      segmentRows := [⟨7, 0, 0, none⟩],
      containerEntities := [⟨1, 0⟩],
      containerVersions := [⟨5, 1, 1, 3, 4, "t"⟩, ⟨9, 1, 2, 7, 8, "t2"⟩],
      units := [⟨2, 1, 0⟩],
      unitVersions := [⟨6, 2, 5, 4⟩, ⟨10, 2, 9, 8⟩],
      nextId := 11 }

-- Shared list lemmas about the embedded operations.

/-- Every row built by mkRows carries the new segment id. -/
theorem mem_mkRows_segment (sid : Nat) (rows : List (Nat × Option Nat)) :
    ∀ pos : Nat, ∀ r ∈ mkRows sid pos rows, r.segment = sid := by
  induction rows with
  | nil => intro pos r hr; simp [mkRows] at hr
  | cons hd tl ih =>
    intro pos r hr
    obtain ⟨e, pv⟩ := hd
    simp only [mkRows, List.mem_cons] at hr
    rcases hr with h | h
    · rw [h]
    · exact ih (pos + 1) r h

/-- Filtering rows of a different segment out of mkRows output leaves
nothing. -/
theorem filter_mkRows_ne (sid x pos : Nat) (rows : List (Nat × Option Nat))
    (hx : x ≠ sid) :
    (mkRows sid pos rows).filter (fun r => r.segment = x) = [] := by
  refine List.filter_eq_nil_iff.2 ?_
  intro r hr
  have hseg := mem_mkRows_segment sid rows pos r hr
  simp [hseg, hx.symm]

/-- Filtering mkRows output by its own segment id keeps every row. -/
theorem filter_mkRows_self (sid pos : Nat) (rows : List (Nat × Option Nat)) :
    (mkRows sid pos rows).filter (fun r => r.segment = sid) =
      mkRows sid pos rows := by
  refine List.filter_eq_self.2 ?_
  intro r hr
  have hseg := mem_mkRows_segment sid rows pos r hr
  simp [hseg]

/-- Projecting entity and pinned version out of mkRows output returns
the input pairs. -/
theorem map_mkRows (sid : Nat) (rows : List (Nat × Option Nat)) :
    ∀ pos : Nat,
      (mkRows sid pos rows).map (fun r => (r.entity, r.version)) = rows := by
  induction rows with
  | nil => intro pos; simp [mkRows]
  | cons hd tl ih =>
    intro pos
    obtain ⟨e, pv⟩ := hd
    simp only [mkRows, List.map_cons, ih (pos + 1)]

/-- The accumulator bounds a version-number fold from below. -/
theorem le_foldl_max (l : List ContainerEntityVersion) (a : Nat) :
    a ≤ l.foldl (fun m cv => max m cv.version_num) a := by
  induction l generalizing a with
  | nil => exact Nat.le_refl a
  | cons hd tl ih =>
    exact Nat.le_trans (Nat.le_max_left a hd.version_num) (ih _)

/-- Every member bounds a version-number fold from below. -/
theorem mem_le_foldl_max (l : List ContainerEntityVersion)
    (cv : ContainerEntityVersion) :
    cv ∈ l → ∀ a : Nat,
      cv.version_num ≤ l.foldl (fun m cv => max m cv.version_num) a := by
  induction l with
  | nil => intro h; simp at h
  | cons hd tl ih =>
    intro h a
    rcases List.mem_cons.1 h with h1 | h1
    · subst h1
      exact Nat.le_trans (Nat.le_max_right a cv.version_num) (le_foldl_max tl _)
    · exact ih h1 _

/-- Existing version numbers of a container never exceed maxVersionNum. -/
theorem version_num_le_max (st : State) (c : Nat) (cv : ContainerEntityVersion)
    (hmem : cv ∈ st.containerVersions) (hc : cv.container = c) :
    cv.version_num ≤ maxVersionNum st c := by
  unfold maxVersionNum
  refine mem_le_foldl_max _ cv ?_ 0
  refine List.mem_filter.2 ⟨hmem, ?_⟩
  simp [hc]

/-- Shape of a successful create_container_version call: the returned
version and the new state spelled out from the inputs. -/
theorem create_container_version_ok (st : State) (c vn : Nat) (t : String)
    (e : Nat) (rows : List (Nat × Option Nat)) (st' : State)
    (cvNew : ContainerEntityVersion)
    (hok : create_container_version st c vn t e rows = .ok (st', cvNew)) :
    st'.segmentRows = st.segmentRows ++ mkRows st.nextId 0 rows ∧
    st'.containerVersions = st.containerVersions ++ [cvNew] ∧
    st'.segments = st.segments ++ [st.nextId] ∧
    st'.pubVersions = st.pubVersions ++ [⟨st.nextId + 1, e, vn⟩] ∧
    st'.entities = set_draft st.entities e (st.nextId + 1) ∧
    st'.units = st.units ∧
    st'.unitVersions = st.unitVersions ∧
    st'.nextId = st.nextId + 3 ∧
    cvNew = ⟨st.nextId + 2, c, vn, st.nextId, st.nextId + 1, t⟩ ∧
    validRows st rows = true := by
  unfold create_container_version createSegment at hok
  split at hok
  · exact absurd hok (by simp)
  · split at hok
    · exact absurd hok (by simp)
    · rename_i st1 sid heq
      split at heq
      · simp only [Except.ok.injEq, Prod.mk.injEq] at heq
        obtain ⟨hst1, hsid⟩ := heq
        subst hst1
        subst hsid
        simp only [Except.ok.injEq, Prod.mk.injEq] at hok
        obtain ⟨hst, hcv⟩ := hok
        subst hst
        subst hcv
        refine ⟨rfl, rfl, rfl, rfl, rfl, rfl, rfl, rfl, rfl, by assumption⟩
      · exact absurd heq (by simp)

/-- C1: a later create_container_version call (for any container, any
version number, any rows) leaves the row list of every already-existing
container version identical, keeps that version in the table, and gives
the new version a brand-new segment distinct from the old one. -/
theorem container_version_rows_immutable (st : State)
    (cv : ContainerEntityVersion) (c vn : Nat) (t : String) (e : Nat)
    (rows : List (Nat × Option Nat)) (st' : State)
    (cvNew : ContainerEntityVersion)
    (hwf : wf st) (hmem : cv ∈ st.containerVersions)
    (hok : create_container_version st c vn t e rows = .ok (st', cvNew)) :
    rowsOf st' cv.segment = rowsOf st cv.segment ∧
    cv ∈ st'.containerVersions ∧
    cvNew.segment ≠ cv.segment := by
  obtain ⟨hrows, hcvs, _, _, _, _, _, _, hcvNew, _⟩ :=
    create_container_version_ok st c vn t e rows st' cvNew hok
  have hseglt : cv.segment < st.nextId := (hwf.2.2.2.2.2.1 cv hmem).2.2
  refine ⟨?_, ?_, ?_⟩
  · unfold rowsOf
    rw [hrows, List.filter_append,
        filter_mkRows_ne st.nextId cv.segment 0 rows (Nat.ne_of_lt hseglt),
        List.append_nil]
  · rw [hcvs]
    exact List.mem_append_left _ hmem
  · rw [hcvNew]
    exact (Nat.ne_of_lt hseglt).symm

/-- C2: on a container that already has a version, a successful
create_next_container_version call assigns version_num equal to one
plus the maximum existing version number for that container and in
particular never reuses an existing number; the new version is recorded.
A losing concurrent call surfaces VersionConflictError and commits
nothing, so a retry recomputes a fresh number. -/
theorem create_next_version_monotonic (st : State) (c : Nat) (t : String)
    (e : Nat) (rows : List (Nat × Option Nat)) (st' : State)
    (cvNew : ContainerEntityVersion)
    (hex : ∃ cv0 ∈ st.containerVersions, cv0.container = c)
    (hok : create_next_container_version st c t e rows = .ok (st', cvNew)) :
    cvNew.version_num = maxVersionNum st c + 1 ∧
    (∀ cv' ∈ st.containerVersions, cv'.container = c →
       cv'.version_num ≠ cvNew.version_num) ∧
    cvNew ∈ st'.containerVersions := by
  unfold create_next_container_version at hok
  obtain ⟨_, hcvs, _, _, _, _, _, _, hcvNew, _⟩ :=
    create_container_version_ok st c (maxVersionNum st c + 1) t e rows st'
      cvNew hok
  refine ⟨by rw [hcvNew], ?_, ?_⟩
  · intro cv' hmem hc
    have hle := version_num_le_max st c cv' hmem hc
    rw [hcvNew]
    simp only []
    omega
  · rw [hcvs]
    exact List.mem_append_right _ (List.mem_singleton_self _)

/-- Witness for C1: creating version 2 of the container in stUnitW
leaves the rows of the segment of existing version 1 (segment 3)
unchanged, keeps that version stored, and allocates a fresh segment. -/
theorem container_version_rows_immutable_witness :
    rowsOf stUnitWAfter 3 = rowsOf stUnitW 3 ∧
    (⟨5, 1, 1, 3, 4, "t"⟩ : ContainerEntityVersion) ∈
      stUnitWAfter.containerVersions ∧
    cvNewW.segment ≠ 3 :=
  container_version_rows_immutable stUnitW ⟨5, 1, 1, 3, 4, "t"⟩ 1 2 "t2" 0 []
    stUnitWAfter cvNewW (by decide) (by decide) (by rfl)

/-- Witness for C2: on stUnitW, whose container 1 already has version 1,
create_next_container_version assigns version_num 2 = 1 + max and does
not collide with the existing number. -/
theorem create_next_version_monotonic_witness :
    cvNextW.version_num = maxVersionNum stUnitW 1 + 1 ∧
    (∀ cv' ∈ stUnitW.containerVersions, cv'.container = 1 →
       cv'.version_num ≠ cvNextW.version_num) ∧
    cvNextW ∈ stUnitWAfter3.containerVersions :=
  create_next_version_monotonic stUnitW 1 "t3" 0 [] stUnitWAfter3 cvNextW
    (by decide) (by rfl)

/-- C4: an unpinned row resolves through its target entity's pointers:
in draft mode to the draft version and in published mode to the
published version; when the published pointer is unset the row resolves
to nothing and is omitted from published-mode row resolution; when the
draft pointer is unset draft-mode resolution raises
InconsistentDraftError. -/
theorem unpinned_row_resolution (st : State) (r : SegmentRow)
    (ent : PubEntity) (hunpinned : r.version = none)
    (hent : st.entities.find? (fun x => x.id = r.entity) = some ent) :
    (∀ v : Nat, ent.draft = some v →
       resolveRow st .draft r = .ok (some ⟨r.order_num, r.entity, v⟩)) ∧
    (∀ v : Nat, ent.published = some v →
       resolveRow st .published r = .ok (some ⟨r.order_num, r.entity, v⟩)) ∧
    (ent.published = none →
       resolveRow st .published r = .ok none ∧
       ∀ rs : List SegmentRow,
         resolveRows st .published (r :: rs) = resolveRows st .published rs) ∧
    (ent.draft = none →
       resolveRow st .draft r = .error .inconsistentDraft) := by
  have hd : getDraft st r.entity = ent.draft := by
    unfold getDraft
    rw [hent]
  have hp : getPublished st r.entity = ent.published := by
    unfold getPublished
    rw [hent]
  refine ⟨?_, ?_, ?_, ?_⟩
  · intro v hv
    simp [resolveRow, hunpinned, hd, hv]
  · intro v hv
    simp [resolveRow, hunpinned, hp, hv]
  · intro hnone
    have h1 : resolveRow st .published r = .ok none := by
      simp [resolveRow, hunpinned, hp, hnone]
    refine ⟨h1, ?_⟩
    intro rs
    cases hres : resolveRows st .published rs with
    | error e => simp [resolveRows, h1, hres]
    | ok rest => simp [resolveRows, h1, hres]
  · intro hnone
    simp [resolveRow, hunpinned, hd, hnone]

/-- Witness for C4: in stEntW entity 1 has draft version 2 and no
published version, so an unpinned row targeting it resolves to version
2 in draft mode and to nothing in published mode. -/
theorem unpinned_row_resolution_witness :
    resolveRow stEntW .draft (⟨0, 0, 1, none⟩ : SegmentRow) =
      .ok (some ⟨0, 1, 2⟩) ∧
    resolveRow stEntW .published (⟨0, 0, 1, none⟩ : SegmentRow) = .ok none := by
  have h := unpinned_row_resolution stEntW ⟨0, 0, 1, none⟩ ⟨1, some 2, none⟩
    rfl (by decide)
  exact ⟨h.1 2 rfl, (h.2.2.1 rfl).1⟩

/-- C3: a pinned row resolves to exactly its pinned version in both
modes, and its resolution does not read the state at all, so it is
unaffected by any draft or published pointer and by later pointer
changes. -/
theorem pinned_row_resolves_to_pin (st st' : State) (mode mode' : Mode)
    (r : SegmentRow) (v : Nat) (h : r.version = some v) :
    resolveRow st mode r = .ok (some ⟨r.order_num, r.entity, v⟩) ∧
    resolveRow st mode r = resolveRow st' mode' r := by
  unfold resolveRow
  rw [h]
  exact ⟨rfl, rfl⟩

/-- Witness for C3: the pinned row of stRowW resolves to version 3 in
draft mode on stRowW and identically on a different state in published
mode, although entity 1 has no draft or published pointer there. -/
theorem pinned_row_resolves_to_pin_witness :
    resolveRow stRowW .draft (⟨0, 0, 1, some 3⟩ : SegmentRow) =
      .ok (some ⟨0, 1, 3⟩) ∧
    resolveRow stRowW .draft (⟨0, 0, 1, some 3⟩ : SegmentRow) =
      resolveRow stEntW .published (⟨0, 0, 1, some 3⟩ : SegmentRow) :=
  pinned_row_resolves_to_pin stRowW stEntW .draft .published
    ⟨0, 0, 1, some 3⟩ 3 rfl

/-- Shape of a successful create_unit_version call: the new state and
the returned unit version spelled out from the inputs. -/
theorem create_unit_version_shape (st : State) (u : Unit) (vn : Nat)
    (t : String) (pks : List Nat) (st' : State) (uv : UnitVersion)
    (hok : create_unit_version st u vn t pks = .ok (st', uv)) :
    st'.segmentRows =
      st.segmentRows ++ mkRows st.nextId 0 (pks.map (fun pk => (pk, none))) ∧
    st'.containerVersions = st.containerVersions ++
      [⟨st.nextId + 2, u.container_entity, vn, st.nextId, st.nextId + 1, t⟩] ∧
    st'.unitVersions = st.unitVersions ++ [uv] ∧
    uv = ⟨st.nextId + 3, u.id, st.nextId + 2, st.nextId + 1⟩ ∧
    st'.nextId = st.nextId + 4 := by
  unfold create_unit_version at hok
  split at hok
  · exact absurd hok (by simp)
  · rename_i st1 cv heq
    obtain ⟨h1, h2, _, _, _, _, h7, h8, h9, _⟩ :=
      create_container_version_ok st u.container_entity vn t
        u.publishable_entity (pks.map (fun pk => (pk, none))) st1 cv heq
    simp only [Except.ok.injEq, Prod.mk.injEq] at hok
    obtain ⟨hst, huv⟩ := hok
    subst hst
    subst huv
    refine ⟨h1, ?_, ?_, ?_, ?_⟩
    · rw [h2, h9]
    · rw [h7]
    · rw [h8, h9]
    · rw [h8]

/-- On a state whose container versions leave version number 1 free for
the unit's container, create_unit_version at version 1 with no members
succeeds. -/
theorem create_unit_version_empty_total (st : State) (u : Unit) (t : String)
    (hconf : (st.containerVersions.any
      (fun cv => cv.container = u.container_entity && cv.version_num = 1))
        = false) :
    ∃ st' : State, ∃ uv : UnitVersion,
      create_unit_version st u 1 t [] = .ok (st', uv) := by
  cases h : create_unit_version st u 1 t [] with
  | ok p =>
    obtain ⟨st1, uv1⟩ := p
    exact ⟨st1, uv1, rfl⟩
  | error e =>
    exfalso
    unfold create_unit_version create_container_version createSegment at h
    simp [hconf, validRows] at h

/-- C5: unit version creation is atomic. On failure the committed state
(per the atomic wrapper semantics) is exactly the pre-call state, with
no new segment rows, container versions or unit versions; on success
the new unit version, its container version and the complete new row
list are all present together; and create_next_unit_version is exactly
create_unit_version at the next sequential version number, so the same
holds for it. -/
theorem unit_version_creation_atomic (st : State) (u : Unit) (vn : Nat)
    (t : String) (pks : List Nat) (hwf : wf st) :
    (∀ e : DBError, create_unit_version st u vn t pks = .error e →
       runAtomic (fun s => create_unit_version s u vn t pks) st = st) ∧
    (∀ st' : State, ∀ uv : UnitVersion,
       create_unit_version st u vn t pks = .ok (st', uv) →
       uv ∈ st'.unitVersions ∧
       ∃ cv ∈ st'.containerVersions,
         cv.id = uv.container_entity_version ∧
         (rowsOf st' cv.segment).map (fun r => (r.entity, r.version)) =
           pks.map (fun pk => (pk, none))) ∧
    create_next_unit_version st u t pks =
      create_unit_version st u (maxVersionNum st u.container_entity + 1)
        t pks := by
  refine ⟨?_, ?_, rfl⟩
  · intro e he
    simp only [runAtomic, he]
  · intro st' uv hok
    obtain ⟨hsr, hcvs, huvs, huv, _⟩ :=
      create_unit_version_shape st u vn t pks st' uv hok
    constructor
    · rw [huvs]
      exact List.mem_append_right _ (List.mem_singleton_self _)
    · refine ⟨⟨st.nextId + 2, u.container_entity, vn, st.nextId,
        st.nextId + 1, t⟩, ?_, ?_, ?_⟩
      · rw [hcvs]
        exact List.mem_append_right _ (List.mem_singleton_self _)
      · rw [huv]
      · unfold rowsOf
        rw [hsr, List.filter_append]
        have h0 : st.segmentRows.filter
            (fun r => r.segment = st.nextId) = [] := by
          refine List.filter_eq_nil_iff.2 ?_
          intro r hr
          have hlt := hwf.2.2.2.1 r hr
          simp only [decide_eq_true_eq]
          omega
        rw [h0, List.nil_append, filter_mkRows_self, map_mkRows]

/-- Witness for C5: on stUnitW, creating unit version 2 with the single
member entity 0 commits the unit version, its container version and its
one-row list together. -/
theorem unit_version_creation_atomic_witness :
    (⟨10, 2, 9, 8⟩ : UnitVersion) ∈ stUnitVW.unitVersions ∧
    ∃ cv ∈ stUnitVW.containerVersions,
      cv.id = (9 : Nat) ∧
      (rowsOf stUnitVW cv.segment).map (fun r => (r.entity, r.version)) =
        [(0, none)] :=
  (unit_version_creation_atomic stUnitW ⟨2, 1, 0⟩ 2 "t2" [0]
    (by decide)).2.1 stUnitVW ⟨10, 2, 9, 8⟩ (by rfl)

/-- C8: create_unit_and_version succeeds on every well-formed state and
returns a unit together with a unit version that belongs to it, whose
container version has version number 1 and an empty row list, all
committed in the same transaction. -/
theorem create_unit_and_version_initial (st : State) (lp : Nat)
    (key : String) (created : Nat) (cb : Option Nat) (title : String)
    (hwf : wf st) :
    ∃ st' : State, ∃ u : Unit, ∃ uv : UnitVersion,
      create_unit_and_version st lp key created cb title =
        .ok (st', u, uv) ∧
      uv.unit = u.id ∧
      ∃ cv ∈ st'.containerVersions,
        cv.id = uv.container_entity_version ∧
        cv.version_num = 1 ∧
        rowsOf st' cv.segment = [] := by
  have hcu : create_unit st lp key created cb = (afterCreateUnit st, unitOf st) := rfl
  have hconf : ((afterCreateUnit st).containerVersions.any
      (fun cv => cv.container = (unitOf st).container_entity &&
        cv.version_num = 1)) = false := by
    rw [Bool.eq_false_iff]
    intro hc
    rw [List.any_eq_true] at hc
    obtain ⟨cv, hm, hcv⟩ := hc
    have hlt := (hwf.2.2.2.2.2.1 cv hm).2.1
    simp only [Bool.and_eq_true, decide_eq_true_eq, unitOf] at hcv
    omega
  obtain ⟨st2, uv, hok⟩ :=
    create_unit_version_empty_total (afterCreateUnit st) (unitOf st)
      title hconf
  obtain ⟨hsr, hcvs, _, huv, _⟩ :=
    create_unit_version_shape (afterCreateUnit st) (unitOf st) 1 title []
      st2 uv hok
  refine ⟨st2, unitOf st, uv, ?_, ?_, ?_⟩
  · unfold create_unit_and_version
    rw [hcu]
    simp only [hok]
  · rw [huv]
  · refine ⟨⟨(afterCreateUnit st).nextId + 2, (unitOf st).container_entity, 1,
      (afterCreateUnit st).nextId, (afterCreateUnit st).nextId + 1, title⟩,
      ?_, ?_, ?_, ?_⟩
    · rw [hcvs]
      exact List.mem_append_right _ (List.mem_singleton_self _)
    · rw [huv]
    · rfl
    · unfold rowsOf
      rw [hsr, List.filter_append]
      have h0 : (afterCreateUnit st).segmentRows.filter
          (fun r => r.segment = (afterCreateUnit st).nextId) = [] := by
        refine List.filter_eq_nil_iff.2 ?_
        intro r hr
        have hlt := hwf.2.2.2.1 r hr
        simp only [decide_eq_true_eq, afterCreateUnit]
        omega
      rw [h0, List.nil_append]
      rfl

/-- Witness for C8: starting from the empty database,
create_unit_and_version produces unit version 1 with no rows. -/
theorem create_unit_and_version_initial_witness :
    ∃ st' : State, ∃ u : Unit, ∃ uv : UnitVersion,
      create_unit_and_version emptyState 1 "k" 0 none "title" =
        .ok (st', u, uv) ∧
      uv.unit = u.id ∧
      ∃ cv ∈ st'.containerVersions,
        cv.id = uv.container_entity_version ∧
        cv.version_num = 1 ∧
        rowsOf st' cv.segment = [] :=
  create_unit_and_version_initial emptyState 1 "k" 0 none "title" (by decide)

/-- C9: the units API dunder-all list declares the three component-named
accessors, but none of them is among the functions the module defines
(the defined ones are the list-named accessors), so accessing any of the
three declared names on the module fails. -/
theorem units_api_all_names_undefined :
    ("get_user_defined_components_in_unit_version" ∈ unitsApiAll ∧
     "get_user_defined_components_in_unit_version" ∉ unitsApiDefinedNames) ∧
    ("get_initial_components_in_unit_version" ∈ unitsApiAll ∧
     "get_initial_components_in_unit_version" ∉ unitsApiDefinedNames) ∧
    ("get_frozen_components_in_unit_version" ∈ unitsApiAll ∧
     "get_frozen_components_in_unit_version" ∉ unitsApiDefinedNames) ∧
    ("get_user_defined_list_in_unit_version" ∈ unitsApiDefinedNames ∧
     "get_initial_list_in_unit_version" ∈ unitsApiDefinedNames ∧
     "get_frozen_list_in_unit_version" ∈ unitsApiDefinedNames) := by
  decide

/-- C6: while any SegmentRow references an entity, deleting that entity
is refused by the RESTRICT constraint; a version that no row pins (it
is referenced only through unpinned rows, which store null) can be
deleted. -/
theorem delete_restrict_semantics :
    (∀ st : State, ∀ e : Nat,
       (∃ r ∈ st.segmentRows, r.entity = e) →
       deleteEntity st e = .error .restricted) ∧
    (∀ st : State, ∀ v : Nat,
       (∀ r ∈ st.segmentRows, r.version ≠ some v) →
       ∃ st' : State, deleteVersion st v = .ok st') := by
  constructor
  · rintro st e ⟨r, hr, he⟩
    have hany : st.segmentRows.any (fun r => r.entity = e) = true := by
      rw [List.any_eq_true]
      exact ⟨r, hr, by simp [he]⟩
    simp [deleteEntity, hany]
  · intro st v h
    have hany : st.segmentRows.any (fun r => r.version = some v) = false := by
      rw [Bool.eq_false_iff]
      intro hc
      rw [List.any_eq_true] at hc
      obtain ⟨r, hr, hv⟩ := hc
      exact h r hr (by simpa using hv)
    refine ⟨{ st with pubVersions := st.pubVersions.filter (fun pv => pv.id ≠ v) }, ?_⟩
    unfold deleteVersion
    rw [hany]
    rfl

/-- Witness for C6: in stRowW, entity 1 is referenced by a row so its
delete is refused, while version 5 (referenced by no pinned row) can be
deleted. -/
theorem delete_restrict_semantics_witness :
    deleteEntity stRowW 1 = .error .restricted ∧
    ∃ st' : State, deleteVersion stRowW 5 = .ok st' :=
  ⟨delete_restrict_semantics.1 stRowW 1 (by decide),
   delete_restrict_semantics.2 stRowW 5 (by decide)⟩

/-- At most one element of a list maps to any given key when the mapped
list has no duplicates. -/
theorem filter_length_le_one_of_map_nodup {α : Type} (f : α → Nat)
    (l : List α) (hnd : (l.map f).Nodup) (a : Nat) :
    (l.filter (fun x => f x = a)).length ≤ 1 := by
  induction l with
  | nil => simp
  | cons hd tl ih =>
    simp only [List.map_cons, List.nodup_cons] at hnd
    obtain ⟨hnotin, hnd2⟩ := hnd
    by_cases hhd : f hd = a
    · have htl : tl.filter (fun x => f x = a) = [] := by
        refine List.filter_eq_nil_iff.2 ?_
        intro x hx hfx
        refine hnotin ?_
        rw [decide_eq_true_eq] at hfx
        rw [← hhd] at hfx
        rw [← hfx]
        exact List.mem_map_of_mem f hx
      simp [List.filter_cons, hhd, htl]
    · simp only [List.filter_cons, hhd]
      simpa using ih hnd2

/-- C7 counterexample: a legal database state (all declared constraints
hold) with a Variant whose Segment no SelectorVersion points at, so no
Selector Version at all — let alone exactly one — is associated with
that Variant. -/
theorem variant_binds_selector_version_false :
    wf exStateNoSV ∧ wfSel exStateNoSV ∧
    ¬ variantBindsOneSelectorVersion exStateNoSV := by
  refine ⟨by decide, by decide, ?_⟩
  intro h
  unfold variantBindsOneSelectorVersion at h
  obtain ⟨sv, ⟨hmem, _⟩, _⟩ := h ⟨0⟩ (by decide)
  simp [exStateNoSV, emptyState] at hmem

/-- C7 amended: every Variant binds exactly one Segment — the Segment is
its OneToOne primary key, so at most one Variant row exists per
Segment — but the Variant model stores no reference to a
SelectorVersion, and since SelectorVersion.segment is a plain
many-to-one foreign key, a Variant's Segment may be pointed at by zero
or by several SelectorVersions, so the Selector Version is not in
general recoverable from a Variant. -/
theorem variant_binds_one_segment_only :
    (∀ st : State, wfSel st → ∀ a : Nat,
       (st.variants.filter (fun v => v.segment = a)).length ≤ 1) ∧
    (wf exStateNoSV ∧ wfSel exStateNoSV ∧
       (⟨0⟩ : Variant) ∈ exStateNoSV.variants ∧
       matchingSelectorVersions exStateNoSV ⟨0⟩ = []) ∧
    (wf exStateTwoSV ∧ wfSel exStateTwoSV ∧
       (⟨1⟩ : Variant) ∈ exStateTwoSV.variants ∧
       (matchingSelectorVersions exStateTwoSV ⟨1⟩).length = 2) := by
  refine ⟨?_, by decide, by decide⟩
  intro st hsel a
  exact filter_length_le_one_of_map_nodup (fun v => v.segment)
    st.variants hsel.2.1 a

/-- Witness for the amended C7: in exStateTwoSV at most one variant
binds segment 1. -/
theorem variant_binds_one_segment_only_witness :
    (exStateTwoSV.variants.filter (fun v => v.segment = 1)).length ≤ 1 :=
  variant_binds_one_segment_only.1 exStateTwoSV (by decide) 1

/-- The row-level fix preserves the primary key. -/
theorem fixTaxonomyRow_pk (r : TaxonomyRow) : (fixTaxonomyRow r).pk = r.pk := by
  unfold fixTaxonomyRow
  by_cases hpk : r.pk = -1
  · by_cases hcl : r.taxonomy_class = some correctClass
    · simp [hpk, hcl]
    · simp [hpk, hcl]
  · simp [hpk]

/-- The row-level fix leaves rows other than pk = -1 unchanged. -/
theorem fixTaxonomyRow_ne (r : TaxonomyRow) (h : r.pk ≠ -1) :
    fixTaxonomyRow r = r := by
  unfold fixTaxonomyRow
  rw [if_neg h]

/-- The row-level fix is idempotent. -/
theorem fixTaxonomyRow_idem (r : TaxonomyRow) :
    fixTaxonomyRow (fixTaxonomyRow r) = fixTaxonomyRow r := by
  unfold fixTaxonomyRow
  by_cases hpk : r.pk = -1
  · by_cases hcl : r.taxonomy_class = some correctClass
    · simp [hpk, hcl]
    · simp [hpk, hcl]
  · simp [hpk]

/-- C10: a successful run of the fix_language_taxonomy migration step
keeps the table length, leaves every row whose pk is not -1 exactly as
it was, changes at most the taxonomy class field of the pk = -1 row
(setting it to the canonical LanguageTaxonomy path while preserving its
other fields), and a second run returns the table unchanged. -/
theorem fix_language_taxonomy_frame (rows rows' : List TaxonomyRow)
    (hok : fix_language_taxonomy rows = .ok rows') :
    rows'.length = rows.length ∧
    (∀ i : Nat, ∀ r : TaxonomyRow, rows[i]? = some r →
       (r.pk ≠ -1 → rows'[i]? = some r) ∧
       (r.pk = -1 → ∃ r' : TaxonomyRow, rows'[i]? = some r' ∧
          r'.pk = r.pk ∧ r'.name = r.name ∧ r'.enabled = r.enabled ∧
          r'.taxonomy_class = some correctClass)) ∧
    fix_language_taxonomy rows' = .ok rows' := by
  unfold fix_language_taxonomy at hok
  cases hfind : rows.find? (fun r => r.pk = -1) with
  | none =>
    rw [hfind] at hok
    exact absurd hok (by simp)
  | some r0 =>
    rw [hfind] at hok
    simp only [Except.ok.injEq] at hok
    subst hok
    refine ⟨List.length_map _ _, ?_, ?_⟩
    · intro i r hi
      have hmapi : (rows.map fixTaxonomyRow)[i]? = some (fixTaxonomyRow r) := by
        rw [List.getElem?_map, hi]
        rfl
      constructor
      · intro hne
        rw [hmapi, fixTaxonomyRow_ne r hne]
      · intro hpk
        refine ⟨fixTaxonomyRow r, hmapi, fixTaxonomyRow_pk r, ?_, ?_, ?_⟩
        · unfold fixTaxonomyRow
          by_cases hcl : r.taxonomy_class = some correctClass
          · simp [hpk, hcl]
          · simp [hpk, hcl]
        · unfold fixTaxonomyRow
          by_cases hcl : r.taxonomy_class = some correctClass
          · simp [hpk, hcl]
          · simp [hpk, hcl]
        · unfold fixTaxonomyRow
          by_cases hcl : r.taxonomy_class = some correctClass
          · simp [hpk, hcl]
          · simp [hpk, hcl]
    · unfold fix_language_taxonomy
      have hpf : ∀ r : TaxonomyRow,
          (fun r => decide (r.pk = -1)) (fixTaxonomyRow r) =
            (fun r => decide (r.pk = -1)) r := by
        intro r
        simp [fixTaxonomyRow_pk r]
      rw [List.find?_map]
      have hcomp : ((fun r => decide (r.pk = -1)) ∘ fixTaxonomyRow) =
          (fun r => decide (r.pk = -1)) := by
        funext r
        exact hpf r
      rw [hcomp, hfind]
      show Except.ok ((rows.map fixTaxonomyRow).map fixTaxonomyRow) =
        Except.ok (rows.map fixTaxonomyRow)
      rw [List.map_map]
      have : (fixTaxonomyRow ∘ fixTaxonomyRow) = fixTaxonomyRow := by
        funext r
        exact fixTaxonomyRow_idem r
      rw [this]

/-- Witness for C10: running the step on a concrete table with a wrong
language-taxonomy class fixes only that field of the pk = -1 row,
leaves the other row untouched, and is idempotent. -/
theorem fix_language_taxonomy_frame_witness :
    taxRowsWFixed.length = taxRowsW.length ∧
    (∀ i : Nat, ∀ r : TaxonomyRow, taxRowsW[i]? = some r →
       (r.pk ≠ -1 → taxRowsWFixed[i]? = some r) ∧
       (r.pk = -1 → ∃ r' : TaxonomyRow, taxRowsWFixed[i]? = some r' ∧
          r'.pk = r.pk ∧ r'.name = r.name ∧ r'.enabled = r.enabled ∧
          r'.taxonomy_class = some correctClass)) ∧
    fix_language_taxonomy taxRowsWFixed = .ok taxRowsWFixed :=
  fix_language_taxonomy_frame taxRowsW taxRowsWFixed (by rfl)

end OLX
